import Mathlib

/-
Verification of the log-stream polling state machine of parity-bridge
(src/api.rs), shallowly embedded in Lean 4.

Modelling conventions:
- u64 values (block heights, the cursor `after`) are Nat; the one place the
  source reduces a wider value to 64 bits (`U256::low_u64`) is modelled by an
  explicit reduction modulo 2 ^ 64.
- `usize` (the `confirmations` field) is Nat; the `as u64` numeric cast in the
  source is modelled as reduction modulo 2 ^ 64 (exact for every real usize).
- `u64::saturating_sub` is Nat subtraction, which is truncated (saturating).
- The external collaborators (the timer interval, the block-number future and
  the logs future held inside the state) are modelled by an environment record
  supplied at each iteration of the poll loop: each pending operation either
  is not ready, resolves with a value, or fails.  The web3 transport, the
  filter template and the poll interval themselves carry no machine-visible
  state and are omitted.
- The macros try_ready! and try_stream! are not under src/.
  Modelled from the spec: a NotReady poll result returns NotReady from poll
  with the stream unchanged, an Err result ends the stream with a terminal
  error, and a value lets the transition continue (spec sections 4.2 and 7).
-/

namespace ParityBridge

/-- Modulus of the u64 type. -/
def U64_MOD : Nat := 2 ^ 64

/-- Model of `U256::low_u64` (api.rs line 75): keep the low 64 bits. -/
def low_u64 (h : Nat) : Nat := h % U64_MOD

/-- Model of api.rs line 76:
`last_block.saturating_sub(self.confirmations as u64)`.
Nat subtraction is truncated, exactly the saturating u64 subtraction; the
`as u64` cast of the usize `confirmations` is reduction modulo 2 ^ 64. -/
def confirmedHeight (last_block confirmations : Nat) : Nat :=
  last_block - confirmations % U64_MOD

/-- Output item of the stream (api.rs lines 37-41).  `from` is a Lean keyword,
hence the field name `from_`.  Log entries are opaque payloads of type Log. -/
structure LogStreamItem (Log : Type) where
  from_ : Nat
  to_ : Nat
  logs : List Log
deriving DecidableEq

/-- The four states of the machine (api.rs lines 43-52).  The pending futures
stored inside `FetchBlockNumber` and `FetchLogs` in the source are resolved by
the environment, so only their identities remain here. -/
inductive LogStreamState (Log : Type) where
  | Wait
  | FetchBlockNumber
  | FetchLogs (from_ : Nat) (to_ : Nat)
  | NextItem (item : Option (LogStreamItem Log))
deriving DecidableEq

/-- The stream object (api.rs lines 54-61), minus the transport, interval and
filter fields, which carry no machine-visible state. -/
structure LogStream (Log : Type) where
  state : LogStreamState Log
  after : Nat
  confirmations : Nat
deriving DecidableEq

/-- Construction parameters (api.rs lines 30-35), minus filter and
poll_interval, which are opaque collaborator configuration. -/
structure LogStreamInit where
  after : Nat
  confirmations : Nat

/-- Constructor `log_stream` (api.rs lines 114-123): state starts at `Wait`,
the cursor and confirmation depth come from the init record. -/
def log_stream (Log : Type) (init : LogStreamInit) : LogStream Log :=
  ⟨.Wait, init.after, init.confirmations⟩

/-- Result of polling one pending external operation once. -/
inductive PollRes (α : Type) where
  | notReady
  | ok (v : α)
  | err
deriving DecidableEq

/-- Environment for one iteration of the poll loop: how each of the three
possible pending operations (interval tick, block-number call, logs call)
would resolve if polled now.  Each loop iteration polls at most one of them. -/
structure Env (Log : Type) where
  tick : PollRes Unit
  height : PollRes Nat
  logs : PollRes (List Log)
deriving DecidableEq

/-- Outcome of one iteration of the `loop` in poll (api.rs lines 68-110). -/
inductive StepRes (Log : Type) where
  /-- `self.state = next_state` was executed and the loop continues. -/
  | cont (s : LogStream Log)
  /-- try_ready! or try_stream! returned NotReady; the stream is unchanged. -/
  | notReady
  /-- `return Ok(some.into())` in the NextItem arm: the poll returns
  Ready(item); `none` signals successful end of stream.  The take() call has
  already mutated the state, carried here. -/
  | ready (item : Option (LogStreamItem Log)) (s : LogStream Log)
  /-- try_ready! or try_stream! propagated an error: terminal. -/
  | error
deriving DecidableEq

/-- One iteration of the poll loop (api.rs lines 69-109), one match arm per
state.  Note the NextItem arm (lines 103-106): the source is
  match item.take() with first arm a lowercase binding pattern `some` and
  second arm `None => LogStreamState::Wait`.
A lowercase identifier is an irrefutable binding pattern in Rust, so the first
arm matches every value, including None, and the second arm is unreachable:
every poll in this state returns Ready(item.take()), and take() leaves
None in the state. -/
def step {Log : Type} (s : LogStream Log) (e : Env Log) : StepRes Log :=
  match s.state with
  | .Wait =>
    match e.tick with
    | .notReady => .notReady
    | .err => .error
    | .ok _ => .cont ⟨.FetchBlockNumber, s.after, s.confirmations⟩
  | .FetchBlockNumber =>
    match e.height with
    | .notReady => .notReady
    | .err => .error
    | .ok h =>
      if confirmedHeight (low_u64 h) s.confirmations > s.after then
        .cont ⟨.FetchLogs (s.after + 1) (confirmedHeight (low_u64 h) s.confirmations),
               s.after, s.confirmations⟩
      else
        .cont ⟨.Wait, s.after, s.confirmations⟩
  | .FetchLogs from_ to_ =>
    match e.logs with
    | .notReady => .notReady
    | .err => .error
    | .ok ls => .cont ⟨.NextItem (some ⟨from_, to_, ls⟩), to_, s.confirmations⟩
  | .NextItem item => .ready item ⟨.NextItem none, s.after, s.confirmations⟩

/-- How a consumer-driven run of the stream ends, carrying the final stream
value.  `ended` is the poll returning Ready(None) (successful end of stream),
`errored` a terminal error, `outOfEnvs` the environment script running out
while the stream is still live. -/
inductive RunEnd (Log : Type) where
  | ended (s : LogStream Log)
  | errored (s : LogStream Log)
  | outOfEnvs (s : LogStream Log)
deriving DecidableEq

/-- The final stream value carried by a run outcome. -/
def RunEnd.stream {Log : Type} : RunEnd Log → LogStream Log
  | .ended s => s
  | .errored s => s
  | .outOfEnvs s => s

/-- Drive the stream like a consumer: iterate the poll loop, one environment
record per iteration, collecting every item the stream yields, until the
stream ends, errors, or the script is exhausted.  A NotReady iteration leaves
the stream unchanged (the consumer simply polls again later). -/
def run {Log : Type} (s : LogStream Log) : List (Env Log) →
    List (LogStreamItem Log) × RunEnd Log
  | [] => ([], .outOfEnvs s)
  | e :: es =>
    match step s e with
    | .cont s' => run s' es
    | .notReady => run s es
    | .ready (some i) s' =>
      let r := run s' es
      (i :: r.1, r.2)
    | .ready none s' => ([], .ended s')
    | .error => ([], .errored s)

/-- The cursor value after one loop iteration (unchanged when the iteration
returns NotReady or an error, since the source returns before any mutation). -/
def stepAfter {Log : Type} (s : LogStream Log) (e : Env Log) : Nat :=
  match step s e with
  | .cont s' => s'.after
  | .ready _ s' => s'.after
  | .notReady => s.after
  | .error => s.after

/-- State well-formedness: in `FetchLogs`, the planned range starts
right after the cursor and ends strictly above it.  Every reachable state
satisfies this (it is set up by the FetchBlockNumber arm and preserved). -/
def inv {Log : Type} (s : LogStream Log) : Prop :=
  match s.state with
  | .FetchLogs from_ to_ => from_ = s.after + 1 ∧ s.after < to_
  | _ => True

/-- The initial state produced by `log_stream` is well formed. -/
theorem inv_init (Log : Type) (init : LogStreamInit) : inv (log_stream Log init) :=
  trivial

/-- A `ready` outcome arises only from the NextItem arm, which always leaves
the state at `NextItem none` with the cursor untouched, and returns exactly
the option that was stored. -/
theorem step_ready {Log : Type} (s : LogStream Log) (e : Env Log)
    (i : Option (LogStreamItem Log)) (s' : LogStream Log)
    (h : step s e = .ready i s') :
    s' = ⟨.NextItem none, s.after, s.confirmations⟩ ∧ s.state = .NextItem i := by
  obtain ⟨st, a, c⟩ := s
  obtain ⟨t, hh, ll⟩ := e
  cases st with
  | Wait => cases t <;> simp_all [step]
  | FetchBlockNumber =>
    cases hh with
    | ok n =>
      by_cases hgt : confirmedHeight (low_u64 n) c > a <;> simp_all [step]
    | _ => simp_all [step]
  | FetchLogs f u => cases ll <;> simp_all [step]
  | NextItem item =>
    simp only [step] at h
    cases h
    exact ⟨rfl, rfl⟩

/-- A `cont` outcome preserves well-formedness, never decreases the cursor,
and increases the cursor exactly in the FetchLogs arm, where the new state
already holds the item covering the adjoining range. -/
theorem step_cont {Log : Type} (s : LogStream Log) (e : Env Log)
    (s' : LogStream Log) (hs : inv s) (h : step s e = .cont s') :
    inv s' ∧ s.after ≤ s'.after ∧
      (s.after < s'.after →
        ∃ ls, s' = ⟨.NextItem (some ⟨s.after + 1, s'.after, ls⟩), s'.after,
                    s.confirmations⟩) := by
  obtain ⟨st, a, c⟩ := s
  obtain ⟨t, hh, ll⟩ := e
  cases st with
  | Wait =>
    cases t with
    | ok v =>
      simp only [step] at h
      cases h
      exact ⟨trivial, Nat.le_refl a, fun hlt => absurd hlt (Nat.lt_irrefl a)⟩
    | notReady => simp [step] at h
    | err => simp [step] at h
  | FetchBlockNumber =>
    cases hh with
    | ok n =>
      by_cases hgt : confirmedHeight (low_u64 n) c > a
      · simp only [step, if_pos hgt] at h
        cases h
        exact ⟨⟨rfl, hgt⟩, Nat.le_refl a, fun hlt => absurd hlt (Nat.lt_irrefl a)⟩
      · simp only [step, if_neg hgt] at h
        cases h
        exact ⟨trivial, Nat.le_refl a, fun hlt => absurd hlt (Nat.lt_irrefl a)⟩
    | notReady => simp [step] at h
    | err => simp [step] at h
  | FetchLogs f u =>
    cases ll with
    | ok ls =>
      simp only [step] at h
      cases h
      have hs' : f = a + 1 ∧ a < u := hs
      refine ⟨trivial, Nat.le_of_lt hs'.2, fun _ => ⟨ls, ?_⟩⟩
      rw [hs'.1]
    | notReady => simp [step] at h
    | err => simp [step] at h
  | NextItem item => simp [step] at h

/-- Over any consumer-driven run from a well-formed stream, the cursor of the
final stream is at least the starting cursor. -/
theorem run_after_mono {Log : Type} (envs : List (Env Log)) (s : LogStream Log)
    (hs : inv s) : s.after ≤ ((run s envs).2.stream).after := by
  induction envs generalizing s with
  | nil => exact Nat.le_refl _
  | cons e es ih =>
    cases hstep : step s e with
    | cont s' =>
      have h := step_cont s e s' hs hstep
      have h2 := ih s' h.1
      simp only [run, hstep]
      omega
    | notReady => simpa [run, hstep] using ih s hs
    | ready i s' =>
      have h := (step_ready s e i s' hstep).1
      cases i with
      | some x =>
        simp only [run, hstep]
        rw [h]
        simpa using ih ⟨.NextItem none, s.after, s.confirmations⟩ trivial
      | none =>
        simp [run, hstep, RunEnd.stream, h]
    | error => simp [run, hstep, RunEnd.stream]

/-- From a stream sitting at `NextItem none`, a run yields no further items:
every poll returns Ready(None). -/
theorem run_emits_nil_of_none {Log : Type} (envs : List (Env Log))
    (s : LogStream Log) (h : s.state = .NextItem none) : (run s envs).1 = [] := by
  obtain ⟨st, a, c⟩ := s
  simp only at h
  subst h
  cases envs with
  | nil => rfl
  | cons e es => simp [run, step]

/-- Because the NextItem arm returns the taken option and leaves
`NextItem none` behind, any run emits at most one item before the stream
signals end-of-stream. -/
theorem run_emits_le_one {Log : Type} (envs : List (Env Log))
    (s : LogStream Log) : (run s envs).1.length ≤ 1 := by
  induction envs generalizing s with
  | nil => simp [run]
  | cons e es ih =>
    cases hstep : step s e with
    | cont s' => simpa [run, hstep] using ih s'
    | notReady => simpa [run, hstep] using ih s
    | ready i s' =>
      cases i with
      | none => simp [run, hstep]
      | some x =>
        have h1 := (step_ready s e (some x) s' hstep).1
        have h2 : (run s' es).1 = [] :=
          run_emits_nil_of_none es s' (by rw [h1])
        simp [run, hstep, h2]
    | error => simp [run, hstep]

/-- Claim C1.  The spec says the Emit state yields its item once, then moves
back to Wait, and the stream never signals a successful end-of-stream.  The
code contradicts this: because the first arm of the NextItem match is the
irrefutable binding pattern `some`, polling in state NextItem(Some item)
yields the item but leaves the state at NextItem(None), and the very next
poll returns Ready(None), the successful end-of-stream signal, instead of
transitioning to Wait.  Concrete evaluation at item (from 101, to 105). -/
theorem C1_nextItem_end_of_stream :
    step (⟨.NextItem (some ⟨101, 105, []⟩), 105, 0⟩ : LogStream Nat)
        ⟨.ok (), .notReady, .notReady⟩
      = .ready (some ⟨101, 105, []⟩) ⟨.NextItem none, 105, 0⟩ ∧
    step (⟨.NextItem none, 105, 0⟩ : LogStream Nat) ⟨.ok (), .notReady, .notReady⟩
      = .ready none ⟨.NextItem none, 105, 0⟩ :=
  ⟨rfl, rfl⟩

/-- Claim C2.  Scenario C as the code actually behaves: after the stream was
started with after 100 and confirmations 0, ticks reporting heights 105 then
110 with successful log fetches yield only the single item (from 101,
to 105), after which the stream signals end-of-stream; the claimed second
item (from 106, to 110) is never produced. -/
theorem C2_scenarioC_single_item :
    run (log_stream Nat ⟨100, 0⟩)
        [⟨.ok (), .notReady, .notReady⟩, ⟨.notReady, .ok 105, .notReady⟩,
         ⟨.notReady, .notReady, .ok []⟩, ⟨.notReady, .notReady, .notReady⟩,
         ⟨.ok (), .notReady, .notReady⟩, ⟨.notReady, .ok 110, .notReady⟩,
         ⟨.notReady, .notReady, .ok []⟩, ⟨.notReady, .notReady, .notReady⟩]
      = ([⟨101, 105, []⟩], .ended ⟨.NextItem none, 105, 0⟩) := by
  rfl

/-- Claim C3.  The confirmed-height computation of the range planner
(api.rs line 76) is the saturating difference: it is zero whenever the
confirmation depth exceeds the reported height, and in general it equals
max(0, latest_height - confirmations) over the integers.  The hypothesis
bounds `confirmations` by 2 ^ 64, which every usize value satisfies. -/
theorem C3_confirmed_height_saturates (l c : Nat) (hc : c < U64_MOD) :
    (c > l → confirmedHeight l c = 0) ∧
    (confirmedHeight l c : Int) = max 0 ((l : Int) - (c : Int)) := by
  have hcc : c % U64_MOD = c := Nat.mod_eq_of_lt hc
  unfold confirmedHeight
  rw [hcc]
  constructor
  · omega
  · omega

/-- Claim C3, witness at latest height 3 and confirmation depth 7. -/
theorem C3_witness :
    ((7 : Nat) > 3 → confirmedHeight 3 7 = 0) ∧
    (confirmedHeight 3 7 : Int) = max 0 (((3 : Nat) : Int) - ((7 : Nat) : Int)) :=
  C3_confirmed_height_saturates 3 7 (by decide)

/-- Claim C4.  Whenever the confirmed height is strictly above the cursor,
the FetchBlockNumber arm plans exactly the range from cursor + 1 to the
confirmed height, and on a successful log fetch the FetchLogs arm builds the
item with exactly those bounds; concretely, after 100, confirmations 0 and
reported height 105 produce the single item (from 101, to 105). -/
theorem C4_planned_range (a c h : Nat) (ls : List Nat) (tr : PollRes Unit)
    (hr : PollRes Nat) (lr : PollRes (List Nat))
    (hgt : confirmedHeight (low_u64 h) c > a) :
    step (⟨.FetchBlockNumber, a, c⟩ : LogStream Nat) ⟨tr, .ok h, lr⟩
      = .cont ⟨.FetchLogs (a + 1) (confirmedHeight (low_u64 h) c), a, c⟩ ∧
    step (⟨.FetchLogs (a + 1) (confirmedHeight (low_u64 h) c), a, c⟩ : LogStream Nat)
        ⟨tr, hr, .ok ls⟩
      = .cont ⟨.NextItem (some ⟨a + 1, confirmedHeight (low_u64 h) c, ls⟩),
               confirmedHeight (low_u64 h) c, c⟩ ∧
    (run (log_stream Nat ⟨100, 0⟩)
        [⟨.ok (), .notReady, .notReady⟩, ⟨.notReady, .ok 105, .notReady⟩,
         ⟨.notReady, .notReady, .ok []⟩, ⟨.notReady, .notReady, .notReady⟩]).1
      = [⟨101, 105, []⟩] := by
  refine ⟨?_, rfl, rfl⟩
  simp only [step]
  rw [if_pos hgt]

/-- Claim C4, witness: after 100, confirmations 0, height 105, empty logs. -/
theorem C4_witness :
    step (⟨.FetchBlockNumber, 100, 0⟩ : LogStream Nat) ⟨.ok (), .ok 105, .notReady⟩
      = .cont ⟨.FetchLogs 101 105, 100, 0⟩ ∧
    step (⟨.FetchLogs 101 105, 100, 0⟩ : LogStream Nat) ⟨.ok (), .notReady, .ok []⟩
      = .cont ⟨.NextItem (some ⟨101, 105, []⟩), 105, 0⟩ ∧
    (run (log_stream Nat ⟨100, 0⟩)
        [⟨.ok (), .notReady, .notReady⟩, ⟨.notReady, .ok 105, .notReady⟩,
         ⟨.notReady, .notReady, .ok []⟩, ⟨.notReady, .notReady, .notReady⟩]).1
      = [⟨101, 105, []⟩] :=
  C4_planned_range 100 0 105 [] (.ok ()) .notReady .notReady (by decide)

/-- Claim C5.  Whenever the confirmed height is at or below the cursor, the
FetchBlockNumber arm continues straight back to Wait: the cursor is
unchanged and no FetchLogs state (hence no log query) is entered; concretely,
after 100, confirmations 10 and reported height 105 emit nothing across
repeated ticks, leaving the stream waiting with cursor 100. -/
theorem C5_no_new_range (a c h : Nat) (tr : PollRes Unit) (lr : PollRes (List Nat))
    (hle : confirmedHeight (low_u64 h) c ≤ a) :
    step (⟨.FetchBlockNumber, a, c⟩ : LogStream Nat) ⟨tr, .ok h, lr⟩
      = .cont ⟨.Wait, a, c⟩ ∧
    run (log_stream Nat ⟨100, 10⟩)
        [⟨.ok (), .notReady, .notReady⟩, ⟨.notReady, .ok 105, .notReady⟩,
         ⟨.ok (), .notReady, .notReady⟩, ⟨.notReady, .ok 105, .notReady⟩]
      = ([], .outOfEnvs ⟨.Wait, 100, 10⟩) := by
  refine ⟨?_, rfl⟩
  simp only [step]
  rw [if_neg (not_lt.mpr hle)]

/-- Claim C5, witness: after 100, confirmations 10, height 105. -/
theorem C5_witness :
    step (⟨.FetchBlockNumber, 100, 10⟩ : LogStream Nat) ⟨.ok (), .ok 105, .notReady⟩
      = .cont ⟨.Wait, 100, 10⟩ ∧
    run (log_stream Nat ⟨100, 10⟩)
        [⟨.ok (), .notReady, .notReady⟩, ⟨.notReady, .ok 105, .notReady⟩,
         ⟨.ok (), .notReady, .notReady⟩, ⟨.notReady, .ok 105, .notReady⟩]
      = ([], .outOfEnvs ⟨.Wait, 100, 10⟩) :=
  C5_no_new_range 100 10 105 (.ok ()) .notReady (by decide)

/-- Claim C6.  Over one loop iteration from any well-formed stream the cursor
never decreases, and when it does increase the very same transition already
carries the item covering the adjoining range (from old cursor + 1 to the new
cursor); over any whole run the cursor of the final stream is at least the
starting cursor. -/
theorem C6_cursor_monotone (s : LogStream Nat) (e : Env Nat)
    (envs : List (Env Nat)) (hs : inv s) :
    s.after ≤ stepAfter s e ∧
    (s.after < stepAfter s e →
      ∃ ls, step s e = .cont ⟨.NextItem (some ⟨s.after + 1, stepAfter s e, ls⟩),
                              stepAfter s e, s.confirmations⟩) ∧
    s.after ≤ ((run s envs).2.stream).after := by
  refine ⟨?_, ?_, run_after_mono envs s hs⟩
  · cases hstep : step s e with
    | cont s' =>
      have h := step_cont s e s' hs hstep
      simp only [stepAfter, hstep]
      exact h.2.1
    | notReady => simp [stepAfter, hstep]
    | ready i s' =>
      have h := (step_ready s e i s' hstep).1
      simp only [stepAfter, hstep]
      rw [h]
    | error => simp [stepAfter, hstep]
  · intro hlt
    cases hstep : step s e with
    | cont s' =>
      have h := step_cont s e s' hs hstep
      simp only [stepAfter, hstep] at hlt ⊢
      obtain ⟨ls, hges⟩ := h.2.2 hlt
      exact ⟨ls, by rw [hges]⟩
    | notReady => simp [stepAfter, hstep] at hlt
    | ready i s' =>
      have h := (step_ready s e i s' hstep).1
      simp only [stepAfter, hstep] at hlt
      rw [h] at hlt
      simp at hlt
    | error => simp [stepAfter, hstep] at hlt

/-- Claim C6, witness at a freshly constructed waiting stream. -/
theorem C6_witness :
    (⟨.Wait, 100, 0⟩ : LogStream Nat).after
        ≤ stepAfter (⟨.Wait, 100, 0⟩ : LogStream Nat) ⟨.ok (), .notReady, .notReady⟩ ∧
    ((⟨.Wait, 100, 0⟩ : LogStream Nat).after
        < stepAfter (⟨.Wait, 100, 0⟩ : LogStream Nat) ⟨.ok (), .notReady, .notReady⟩ →
      ∃ ls, step (⟨.Wait, 100, 0⟩ : LogStream Nat) ⟨.ok (), .notReady, .notReady⟩
        = .cont ⟨.NextItem (some ⟨(⟨.Wait, 100, 0⟩ : LogStream Nat).after + 1,
                   stepAfter (⟨.Wait, 100, 0⟩ : LogStream Nat)
                     ⟨.ok (), .notReady, .notReady⟩, ls⟩),
                 stepAfter (⟨.Wait, 100, 0⟩ : LogStream Nat)
                   ⟨.ok (), .notReady, .notReady⟩, 0⟩) ∧
    (⟨.Wait, 100, 0⟩ : LogStream Nat).after
        ≤ ((run (⟨.Wait, 100, 0⟩ : LogStream Nat) []).2.stream).after :=
  C6_cursor_monotone ⟨.Wait, 100, 0⟩ ⟨.ok (), .notReady, .notReady⟩ [] trivial

/-- Claim C7.  Under any tick and response script, consecutive items emitted
by a freshly constructed stream satisfy next.from = previous.to + 1.  For
this code the property holds because a run emits at most one item before the
stream signals end-of-stream (see the NextItem arm note on `step`). -/
theorem C7_contiguous_ranges (a c : Nat) (envs : List (Env Nat)) :
    List.Chain' (fun i j => j.from_ = i.to_ + 1)
      (run (log_stream Nat ⟨a, c⟩) envs).1 := by
  have h := run_emits_le_one envs (log_stream Nat ⟨a, c⟩)
  rcases hl : (run (log_stream Nat ⟨a, c⟩) envs).1 with _ | ⟨x, _ | ⟨y, ys⟩⟩
  · exact List.chain'_nil
  · exact List.chain'_singleton x
  · rw [hl] at h
    simp at h

/-- Claim C8.  Errors from a pending RPC call do propagate as terminal errors
when the machine is actually awaiting that call (first two conjuncts), but
the Scenario D part of the claim fails on this code: with a failing second
logs fetch scripted, the run emits the first item and then terminates with
the successful end-of-stream signal, never reaching the second logs query
(third conjunct: the outcome is `ended`, not `errored`). -/
theorem C8_error_propagation :
    step (⟨.FetchBlockNumber, 100, 0⟩ : LogStream Nat) ⟨.notReady, .err, .notReady⟩
      = .error ∧
    step (⟨.FetchLogs 106 110, 105, 0⟩ : LogStream Nat) ⟨.notReady, .notReady, .err⟩
      = .error ∧
    run (log_stream Nat ⟨100, 0⟩)
        [⟨.ok (), .notReady, .notReady⟩, ⟨.notReady, .ok 105, .notReady⟩,
         ⟨.notReady, .notReady, .ok []⟩, ⟨.notReady, .notReady, .notReady⟩,
         ⟨.ok (), .notReady, .notReady⟩, ⟨.notReady, .ok 110, .notReady⟩,
         ⟨.notReady, .notReady, .err⟩]
      = ([⟨101, 105, []⟩], .ended ⟨.NextItem none, 105, 0⟩) :=
  ⟨rfl, rfl, rfl⟩

/-- Claim C9.  Restart idempotence fails on this code: the original
uninterrupted run (after 100, heights 105 then 110) emits only the item
(from 101, to 105) and then ends, so its item sequence after that item is
empty, while a fresh stream restarted with after 105 against the same
subsequent responses emits (from 106, to 110). -/
theorem C9_restart_differs :
    (run (log_stream Nat ⟨100, 0⟩)
        [⟨.ok (), .notReady, .notReady⟩, ⟨.notReady, .ok 105, .notReady⟩,
         ⟨.notReady, .notReady, .ok []⟩, ⟨.notReady, .notReady, .notReady⟩,
         ⟨.ok (), .notReady, .notReady⟩, ⟨.notReady, .ok 110, .notReady⟩,
         ⟨.notReady, .notReady, .ok []⟩, ⟨.notReady, .notReady, .notReady⟩]).1
      = [⟨101, 105, []⟩] ∧
    (run (log_stream Nat ⟨105, 0⟩)
        [⟨.ok (), .notReady, .notReady⟩, ⟨.notReady, .ok 110, .notReady⟩,
         ⟨.notReady, .notReady, .ok []⟩, ⟨.notReady, .notReady, .notReady⟩]).1
      = [⟨106, 110, []⟩] ∧
    ([⟨101, 105, []⟩] : List (LogStreamItem Nat)).drop 1 ≠ [⟨106, 110, []⟩] :=
  ⟨rfl, rfl, by decide⟩

/-- Claim C10.  The reported height enters range planning only through
`low_u64`, reduction modulo 2 ^ 64: the FetchBlockNumber arm behaves
identically on h and on h mod 2 ^ 64, and the confirmed height is the
saturating difference of the reduced height and the cast confirmation depth;
concretely a reported height of 2 ^ 64 + 105 plans as height 105. -/
theorem C10_low_u64_reduction (a c h : Nat) (tr : PollRes Unit)
    (lr : PollRes (List Nat)) :
    step (⟨.FetchBlockNumber, a, c⟩ : LogStream Nat) ⟨tr, .ok h, lr⟩
      = step (⟨.FetchBlockNumber, a, c⟩ : LogStream Nat) ⟨tr, .ok (h % U64_MOD), lr⟩ ∧
    confirmedHeight (low_u64 h) c = h % U64_MOD - c % U64_MOD ∧
    low_u64 (U64_MOD + 105) = 105 := by
  refine ⟨?_, rfl, by decide⟩
  have hmm : low_u64 (h % U64_MOD) = low_u64 h := Nat.mod_mod_of_dvd h dvd_rfl
  simp only [step, hmm]

end ParityBridge
